import Mathlib

/-!
Shallow embedding of the store-audio-tool merge pipeline
(src/utils/audio.ts, src/unnamed/part_000, src/App.tsx,
src/services/geminiService.ts) together with theorems checking the
natural-language specification against it.

Bytes are modelled as natural numbers below 256, byte sequences as
`List Nat`, float audio samples as rationals (every multiplication the
code performs on clamped samples is exact in double precision, so the
rational model is exact), and 16-bit signed integers as `Int` with the
explicit wrap `% 2 ^ 16` of an Int16Array store.
-/

namespace StoreAudio

/-- Byte of a byte sequence at an index, 0 past the end
(mirrors indexed reads of a DataView over the produced buffer). -/
def byteAt : List Nat → Nat → Nat
  | [], _ => 0
  | b :: _, 0 => b
  | _ :: bs, n + 1 => byteAt bs n

/-- Little-endian 16-bit read at a byte offset. -/
def readLE16 (bytes : List Nat) (off : Nat) : Nat :=
  byteAt bytes off + 256 * byteAt bytes (off + 1)

/-- Little-endian 32-bit read at a byte offset. -/
def readLE32 (bytes : List Nat) (off : Nat) : Nat :=
  byteAt bytes off + 256 * byteAt bytes (off + 1) +
    65536 * byteAt bytes (off + 2) + 16777216 * byteAt bytes (off + 3)

/-- Bytes written by `setUint16(data, true)` of the source: the value
modulo 2^16, little-endian. -/
def le16 (v : Nat) : List Nat :=
  [v % 256, v / 256 % 256]

/-- Bytes written by `setUint32(data, true)` of the source: the value
modulo 2^32, little-endian. -/
def le32 (v : Nat) : List Nat :=
  [v % 256, v / 256 % 256, v / 65536 % 256, v / 16777216 % 256]

/-- The 44 header bytes written by `bufferToWav`
(src/utils/audio.ts, lines 58-75), parameterized by the sample rate,
the channel count and the payload byte length `d` (in the source,
`length = d + 44`, so the field at offset 4 is `d + 36` and the field
at offset 40 is `d`).  This is also the contract of the
`createWavHeader(sampleRate, numChannels, dataLength)` helper that
App.tsx imports. -/
def createWavHeader (sampleRate numChannels dataLength : Nat) : List Nat :=
  le32 0x46464952 ++                         -- "RIFF"
  le32 (dataLength + 36) ++                  -- file length - 8
  le32 0x45564157 ++                         -- "WAVE"
  le32 0x20746d66 ++                         -- "fmt " chunk
  le32 16 ++                                 -- length = 16
  le16 1 ++                                  -- PCM (uncompressed)
  le16 numChannels ++
  le32 sampleRate ++
  le32 (sampleRate * 2 * numChannels) ++     -- avg. bytes/sec
  le16 (numChannels * 2) ++                  -- block-align
  le16 16 ++                                 -- 16-bit
  le32 0x61746164 ++                         -- "data" chunk
  le32 dataLength                            -- chunk length

/-- Decoded audio buffer (Web Audio AudioBuffer): a sample rate, a
sample-frame length, and per-channel float sample arrays, modelled as
rationals. -/
structure AudioBuffer where
  sampleRate : Nat
  length : Nat
  channels : List (List ℚ)

/-- Channel count of a decoded buffer (`buffer.numberOfChannels`). -/
def AudioBuffer.numberOfChannels (b : AudioBuffer) : Nat :=
  b.channels.length

/-- The float data of one channel (`buffer.getChannelData(i)`). -/
def getChannelData (b : AudioBuffer) (i : Nat) : List ℚ :=
  b.channels.getD i []

/-- A buffer is well formed when each channel array has exactly
`length` entries, as the Web Audio API guarantees. -/
def AudioBuffer.wf (b : AudioBuffer) : Prop :=
  ∀ c ∈ b.channels, c.length = b.length

/-- Truncation toward zero of a rational, as the JavaScript number to
integer conversions used by the source (`| 0`, Int16Array element
store) perform. -/
def ratTrunc (q : ℚ) : ℤ :=
  if q < 0 then ⌈q⌉ else ⌊q⌋

/-- Conversion of one float sample to a signed 16-bit integer, as both
`extractPCM16` (src/unnamed/part_000, lines 24-32) and `bufferToWav`
(src/utils/audio.ts, lines 79-88) perform it: clamp to [-1, 1], scale a
negative value by 32768 and a non-negative one by 32767, truncate toward
zero, and store into a 16-bit signed cell (wrap modulo 2^16). -/
def toPCM16 (s : ℚ) : ℤ :=
  let c := max (-1 : ℚ) (min 1 s)
  let v := if c < 0 then ratTrunc (c * 32768) else ratTrunc (c * 32767)
  (v + 32768) % 65536 - 32768

/-- The `extractPCM16` function of src/unnamed/part_000: left channel is
channel 0, right channel is channel 1 when present and otherwise a
duplicate of channel 0; every frame is converted by the clamp-and-scale
rule of `toPCM16`. -/
def extractPCM16 (b : AudioBuffer) : List ℤ × List ℤ :=
  let leftFloat := getChannelData b 0
  let rightFloat :=
    if 1 < b.numberOfChannels then getChannelData b 1 else leftFloat
  ((List.range b.length).map fun i => toPCM16 (leftFloat.getD i 0),
   (List.range b.length).map fun i => toPCM16 (rightFloat.getD i 0))

/-- Little-endian byte pair of a 16-bit signed value in twos complement. -/
def int16LE (v : ℤ) : List Nat :=
  [(v % 65536).toNat % 256, (v % 65536).toNat / 256]

/-- Modelled from the spec: `audioBufferToWavPCM` is imported by
src/App.tsx from src/utils/audio but is absent from src (the shipped
audio.ts holds the older `bufferToWav`).  Per spec section 4.2 it turns
one decoded buffer into an interleaved chunk, 16-bit signed
little-endian, exactly 2 channels ordered L,R per frame; the per-sample
conversion and the mono duplication are exactly those of the
`extractPCM16` source found in src/unnamed/part_000. -/
def audioBufferToWavPCM (b : AudioBuffer) : List Nat :=
  let pcm := extractPCM16 b
  (List.range b.length).flatMap fun i =>
    int16LE (pcm.1.getD i 0) ++ int16LE (pcm.2.getD i 0)

/-- Duration in seconds of a decoded buffer (`buffer.duration`). -/
def AudioBuffer.duration (b : AudioBuffer) : ℚ :=
  (b.length : ℚ) / (b.sampleRate : ℚ)

/-- Track category (music or voiceover) of src/types.ts. -/
inductive TrackType where
  | music
  | voiceover
deriving DecidableEq

/-- A browser File value as the pipeline sees it: a name, a MIME type
and raw bytes. -/
structure JSFile where
  name : String
  mimeType : String
  data : List Nat
deriving DecidableEq

/-- The Track record of src/types.ts: an id, an optional raw file
reference, an optional pre-decoded buffer, a display name, a duration in
seconds and a category. -/
structure Track where
  id : String
  file : Option JSFile
  buffer : Option AudioBuffer
  name : String
  duration : ℚ
  type : TrackType

/-- The decoding environment: the shared AudioContext, carrying its
sample rate and its `decodeAudioData` capability, which either yields a
decoded buffer or fails with an error message. -/
structure AudioCtx where
  sampleRate : Nat
  decodeAudioData : List Nat → Except String AudioBuffer

/-- The `decodeAudio` helper (src/utils/audio.ts, lines 4-7): read the
bytes of the file and hand them to `ctx.decodeAudioData`. -/
def decodeAudio (file : JSFile) (ctx : AudioCtx) : Except String AudioBuffer :=
  ctx.decodeAudioData file.data

/-- The status field of ProcessingState in src/types.ts. -/
inductive ProcessStatus where
  | idle
  | analyzing
  | generatingTts
  | decoding
  | merging
  | completed
  | error
deriving DecidableEq

/-- ProcessingState of src/types.ts: phase, message, progress. -/
structure ProcessingState where
  status : ProcessStatus
  message : String
  progress : ℚ
deriving DecidableEq

/-- The two pieces of App state that `processMerge` writes: the
`processing` state and the published artifact `mergedBlob`. -/
structure MergeState where
  processing : ProcessingState
  mergedBlob : Option (List Nat)

/-- Modelled from the spec: the localization table src/utils/i18n is
imported by App.tsx but absent from src.  Each entry is a fixed string
chosen here as a placeholder; the theorems below depend only on the
entry being one constant, independent of the track that was being
processed. -/
def statusError : String := "Processing failed"

/-- Modelled from the spec: placeholder for the i18n ready message, a
constant (see `statusError`). -/
def statusReady : String := "Your mix is ready"

/-- Per-track buffer acquisition step of the `processMerge` loop
(src/App.tsx, lines 147-153): a pre-decoded buffer is used directly, a
raw file goes through the decoder adapter, and a track with neither is
skipped. -/
def trackBuffer (ctx : AudioCtx) (t : Track) : Except String (Option AudioBuffer) :=
  match t.buffer with
  | some b => .ok (some b)
  | none =>
    match t.file with
    | some f => (decodeAudio f ctx).map some
    | none => .ok none

/-- The decode-and-normalize loop of `processMerge` (src/App.tsx, lines
136-164): for each track in list order obtain its buffer, convert it to
a PCM chunk, and accumulate the chunks; the first failure aborts the
whole merge with the failure message. -/
def collectChunks (ctx : AudioCtx) : List Track → Except String (List (List Nat))
  | [] => .ok []
  | t :: ts =>
    match trackBuffer ctx t with
    | .error e => .error e
    | .ok none => collectChunks ctx ts
    | .ok (some b) =>
      match collectChunks ctx ts with
      | .error e => .error e
      | .ok rest => .ok (audioBufferToWavPCM b :: rest)

/-- Final state of one `processMerge` invocation (src/App.tsx, lines
122-183): an empty track list returns at once leaving the state
untouched; otherwise the chunks are collected in track order, and either
the artifact header-plus-chunks is published with status `completed`, or
the caught failure sets status `error` with the generic failure text
plus the exception message and leaves the artifact cleared (it is set
to null at the start of the invocation). -/
def processMerge (ctx : AudioCtx) (tracks : List Track) (s : MergeState) :
    MergeState :=
  if tracks.length = 0 then s
  else
    match collectChunks ctx tracks with
    | .ok chunks =>
      let totalDataLength := (chunks.map List.length).sum
      let header := createWavHeader ctx.sampleRate 2 totalDataLength
      { processing := { status := .completed, message := statusReady, progress := 100 },
        mergedBlob := some (header ++ chunks.flatten) }
    | .error msg =>
      { processing :=
          { status := .error,
            message := statusError ++ " (" ++
              (if msg = "" then "Unknown error" else msg) ++ ")",
            progress := 0 },
        mergedBlob := none }

/-- Whether the buffer acquisition step of a track succeeds. -/
def trackOk (ctx : AudioCtx) (t : Track) : Bool :=
  match trackBuffer ctx t with
  | .ok _ => true
  | .error _ => false

/-- The chunk contribution of a single track when its acquisition
succeeds: one normalized chunk, or nothing for a track that is skipped
(neither buffer nor file). -/
def chunkOf (ctx : AudioCtx) (t : Track) : List (List Nat) :=
  match trackBuffer ctx t with
  | .ok (some b) => [audioBufferToWavPCM b]
  | _ => []

/-- Concatenated payload bytes contributed by a track list. -/
def payloadOf (ctx : AudioCtx) (l : List Track) : List Nat :=
  (l.flatMap (chunkOf ctx)).flatten

/-- Whether `needle` occurs as a contiguous character run of the
second list. -/
def containsSeq (needle : List Char) : List Char → Bool
  | [] => needle.isEmpty
  | c :: rest => needle.isPrefixOf (c :: rest) || containsSeq needle rest

/-- Whether the string `hay` mentions `needle` as a substring. -/
def strMentions (hay needle : String) : Bool :=
  containsSeq needle.data hay.data

/-- Five imported tracks with digit-free names, the raw payload of the
i-th file being the single byte i. -/
def fiveTracks : List Track :=
  [Track.mk "t-alpha" (some (JSFile.mk "alpha.mp3" "audio/mpeg" [1])) none
      "alpha.mp3" 0 .music,
   Track.mk "t-beta" (some (JSFile.mk "beta.mp3" "audio/mpeg" [2])) none
      "beta.mp3" 0 .music,
   Track.mk "t-gamma" (some (JSFile.mk "gamma.mp3" "audio/mpeg" [3])) none
      "gamma.mp3" 0 .music,
   Track.mk "t-delta" (some (JSFile.mk "delta.mp3" "audio/mpeg" [4])) none
      "delta.mp3" 0 .music,
   Track.mk "t-epsilon" (some (JSFile.mk "epsilon.mp3" "audio/mpeg" [5])) none
      "epsilon.mp3" 0 .music]

/-- A decoding environment that fails exactly on the file whose payload
is the byte `k`, with a fixed decoder message, and decodes every other
file to a one-sample silent buffer. -/
def ctxFailingOn (k : Nat) : AudioCtx :=
  AudioCtx.mk 44100 fun data =>
    if data = [k] then .error "decode failed" else .ok (AudioBuffer.mk 44100 1 [[0]])

/-- The state a merge invocation starts from in the scenario. -/
def idleState : MergeState :=
  MergeState.mk (ProcessingState.mk .idle "" 0) none

/-- The provenance invariant of a Track: exactly one of the raw file
reference and the pre-decoded buffer is set. -/
def trackInvariant (t : Track) : Prop :=
  (t.file.isSome = true ∧ t.buffer.isNone = true) ∨
  (t.file.isNone = true ∧ t.buffer.isSome = true)

/-- The media filter of `handleFileUpload` (src/App.tsx, line 47):
accept files whose MIME type starts with audio/ or video/. -/
def isMediaFile (f : JSFile) : Bool :=
  f.mimeType.startsWith "audio/" || f.mimeType.startsWith "video/"

/-- The track record `handleFileUpload` pushes for an accepted file
(src/App.tsx, lines 48-54): random id, the file itself, no buffer, the
file name, duration 0, category music. -/
def mkUploadTrack (id : String) (f : JSFile) : Track :=
  Track.mk id (some f) none f.name 0 .music

/-- The `handleFileUpload` handler (src/App.tsx, lines 41-59): append
one upload track per accepted media file to the previous list; the
random ids are modelled by an id supplier indexed by position. -/
def handleFileUpload (idGen : Nat → String) (files : List JSFile)
    (prev : List Track) : List Track :=
  prev ++ (files.filter isMediaFile).enum.map fun p => mkUploadTrack (idGen p.1) p.2

/-- The `handleAddIntro` handler (src/App.tsx, lines 105-114): prepend
the generated intro track, which has a null file, the generated buffer,
an AI display name, the buffer duration and category voiceover; `now`
models Date.now(). -/
def handleAddIntro (now : String) (aiName : String) (buffer : AudioBuffer)
    (prev : List Track) : List Track :=
  Track.mk ("intro-" ++ now) none (some buffer) aiName buffer.duration .voiceover
    :: prev

/-- A placeholder track used only as the out-of-bounds default of list
indexing; it never appears in results under the bounds hypotheses. -/
def dummyTrack : Track :=
  Track.mk "" none none "" 0 .music

/-- Direction argument of `moveTrack`. -/
inductive MoveDirection where
  | up
  | down
deriving DecidableEq

/-- The `moveTrack` handler (src/App.tsx, lines 65-73): swap the entry
at `index` with its upper or lower neighbour when one exists, otherwise
leave the list as it is. -/
def moveTrack (tracks : List Track) (index : Nat) (dir : MoveDirection) :
    List Track :=
  match dir with
  | .up =>
    if 0 < index then
      (tracks.set index (tracks.getD (index - 1) dummyTrack)).set (index - 1)
        (tracks.getD index dummyTrack)
    else tracks
  | .down =>
    if index < tracks.length - 1 then
      (tracks.set index (tracks.getD (index + 1) dummyTrack)).set (index + 1)
        (tracks.getD index dummyTrack)
    else tracks

/-- The `removeTrack` handler (src/App.tsx, lines 61-63): keep the
tracks whose id differs. -/
def removeTrack (id : String) (tracks : List Track) : List Track :=
  tracks.filter fun t => t.id ≠ id

/-- The in-range indices of the AI-returned order, in order of
occurrence (`sortTracksSmartly` of src/services/geminiService.ts checks
`index >= 0 && index < tracks.length`); this list doubles as the
`usedIndices` set since membership in it is exactly membership in that
set. -/
def validIndices (tracks : List Track) (order : List Int) : List Int :=
  order.filter fun i => decide (0 ≤ i) && decide (i < (tracks.length : Int))

/-- The `sortTracksSmartly` mapping step (src/services/geminiService.ts,
lines 100-122) applied to the AI-returned index list `order`: push the
track of every in-range index in AI order, then append every track whose
index the AI did not use, in original order. -/
def sortTracksSmartly (tracks : List Track) (order : List Int) : List Track :=
  ((validIndices tracks order).map fun i => tracks.getD i.toNat dummyTrack) ++
    (List.range tracks.length).filterMap fun (j : Nat) =>
      if (j : Int) ∈ validIndices tracks order then none
      else some (tracks.getD j dummyTrack)

lemma int16LE_length (v : ℤ) : (int16LE v).length = 2 := rfl

lemma flatMap_range_chunk {α : Type} (c : Nat) :
    ∀ (n : Nat) (f : Nat → List α), (∀ j, (f j).length = c) →
      ∀ i, i < n → (((List.range n).flatMap f).drop (c * i)).take c = f i := by
  intro n
  induction n with
  | zero => exact fun f _ i hi => absurd hi (Nat.not_lt_zero i)
  | succ k ih =>
    intro f hf i hi
    rw [List.range_succ_eq_map, List.flatMap_cons, List.flatMap_map]
    cases i with
    | zero =>
      rw [Nat.mul_zero, List.drop_zero, ← hf 0, List.take_left]
    | succ j =>
      have hl : c * (j + 1) = (f 0).length + c * j := by rw [hf 0]; ring
      rw [hl, List.drop_append]
      exact ih (f ∘ Nat.succ) (fun m => hf (m + 1)) j (Nat.lt_of_succ_lt_succ hi)

lemma toPCM16_spec (s : ℚ) :
    (max (-1 : ℚ) (min 1 s) < 0 →
      toPCM16 s = ratTrunc (max (-1 : ℚ) (min 1 s) * 32768)) ∧
    (0 ≤ max (-1 : ℚ) (min 1 s) →
      toPCM16 s = ratTrunc (max (-1 : ℚ) (min 1 s) * 32767)) ∧
    -32768 ≤ toPCM16 s ∧ toPCM16 s ≤ 32767 := by
  set c := max (-1 : ℚ) (min 1 s) with hcdef
  have hc1 : (-1 : ℚ) ≤ c := le_max_left _ _
  have hc2 : c ≤ 1 := max_le (by norm_num) (min_le_left 1 s)
  by_cases h : c < 0
  · have htp : toPCM16 s = (ratTrunc (c * 32768) + 32768) % 65536 - 32768 := by
      rw [toPCM16]
      simp only [← hcdef, if_pos h]
    have hneg : c * 32768 < 0 := mul_neg_of_neg_of_pos h (by norm_num)
    have hvdef : ratTrunc (c * 32768) = ⌈c * 32768⌉ := by rw [ratTrunc, if_pos hneg]
    have hlb : (-32768 : ℤ) ≤ ⌈c * 32768⌉ := by
      have hle : ((-32768 : ℤ) : ℚ) ≤ c * 32768 := by push_cast; nlinarith
      calc (-32768 : ℤ) = ⌈((-32768 : ℤ) : ℚ)⌉ := (Int.ceil_intCast _).symm
        _ ≤ ⌈c * 32768⌉ := Int.ceil_le_ceil hle
    have hub : ⌈c * 32768⌉ ≤ 0 := by
      have := Int.ceil_le_ceil (le_of_lt hneg)
      simpa using this
    have heq : toPCM16 s = ratTrunc (c * 32768) := by rw [htp, hvdef]; omega
    exact ⟨fun _ => heq, fun h0 => absurd h (not_lt.mpr h0),
      by rw [heq, hvdef]; omega, by rw [heq, hvdef]; omega⟩
  · push_neg at h
    have htp : toPCM16 s = (ratTrunc (c * 32767) + 32768) % 65536 - 32768 := by
      rw [toPCM16]
      simp only [← hcdef, if_neg (not_lt.mpr h)]
    have hnn : 0 ≤ c * 32767 := mul_nonneg h (by norm_num)
    have hvdef : ratTrunc (c * 32767) = ⌊c * 32767⌋ := by
      rw [ratTrunc, if_neg (not_lt.mpr hnn)]
    have hlb : (0 : ℤ) ≤ ⌊c * 32767⌋ := Int.floor_nonneg.mpr hnn
    have hub : ⌊c * 32767⌋ ≤ 32767 := by
      have hle : c * 32767 ≤ ((32767 : ℤ) : ℚ) := by push_cast; nlinarith
      calc ⌊c * 32767⌋ ≤ ⌊((32767 : ℤ) : ℚ)⌋ := Int.floor_le_floor hle
        _ = 32767 := Int.floor_intCast _
    have heq : toPCM16 s = ratTrunc (c * 32767) := by rw [htp, hvdef]; omega
    exact ⟨fun h0 => absurd h0 (not_lt.mpr h), fun _ => heq,
      by rw [heq, hvdef]; omega, by rw [heq, hvdef]; omega⟩

/-- C2: normalization emits exactly two output channels: for a mono
source the single channel is duplicated, so left and right outputs are
pairwise identical and both equal the converted channel-0 samples; for a
source with two or more channels, channel 0 becomes left and channel 1
becomes right; and channels beyond index 1 never influence the output
(two buffers agreeing on length and channels 0 and 1 normalize
identically regardless of further channels). -/
theorem extractPCM16_channel_layout :
    (∀ b : AudioBuffer, b.numberOfChannels = 1 →
      (extractPCM16 b).1 = (extractPCM16 b).2 ∧
      (extractPCM16 b).1 =
        (List.range b.length).map fun i =>
          toPCM16 ((getChannelData b 0).getD i 0)) ∧
    (∀ b : AudioBuffer, 2 ≤ b.numberOfChannels →
      (extractPCM16 b).1 =
        ((List.range b.length).map fun i =>
          toPCM16 ((getChannelData b 0).getD i 0)) ∧
      (extractPCM16 b).2 =
        (List.range b.length).map fun i =>
          toPCM16 ((getChannelData b 1).getD i 0)) ∧
    (∀ b b' : AudioBuffer, 2 ≤ b.numberOfChannels →
      2 ≤ b'.numberOfChannels → b.length = b'.length →
      getChannelData b 0 = getChannelData b' 0 →
      getChannelData b 1 = getChannelData b' 1 →
      extractPCM16 b = extractPCM16 b') := by
  refine ⟨fun b h => ?_, fun b h => ?_, fun b b' h h' hlen h0 h1 => ?_⟩
  · constructor <;> simp [extractPCM16, h]
  · constructor <;> simp [extractPCM16, Nat.lt_of_lt_of_le Nat.one_lt_two h]
  · have hb : 1 < b.numberOfChannels := Nat.lt_of_lt_of_le Nat.one_lt_two h
    have hb' : 1 < b'.numberOfChannels := Nat.lt_of_lt_of_le Nat.one_lt_two h'
    simp only [extractPCM16, if_pos hb, if_pos hb', hlen, h0, h1]

/-- C2 witness: a concrete mono buffer has identical left and right
outputs equal to the converted channel-0 samples; a concrete 3-channel
buffer takes left from channel 0 and right from channel 1, and agrees
with the 2-channel buffer sharing its first two channels. -/
theorem extractPCM16_channel_layout_witness :
    ((AudioBuffer.mk 8000 2 [[1/2, -1/2]]).numberOfChannels = 1 ∧
      ((extractPCM16 (AudioBuffer.mk 8000 2 [[1/2, -1/2]])).1 =
        (extractPCM16 (AudioBuffer.mk 8000 2 [[1/2, -1/2]])).2 ∧
       (extractPCM16 (AudioBuffer.mk 8000 2 [[1/2, -1/2]])).1 =
        (List.range 2).map fun i =>
          toPCM16 ((getChannelData (AudioBuffer.mk 8000 2 [[1/2, -1/2]]) 0).getD i 0))) ∧
    (2 ≤ (AudioBuffer.mk 8000 1 [[1/2], [1], [1/4]]).numberOfChannels ∧
     2 ≤ (AudioBuffer.mk 8000 1 [[1/2], [1]]).numberOfChannels ∧
      extractPCM16 (AudioBuffer.mk 8000 1 [[1/2], [1], [1/4]]) =
        extractPCM16 (AudioBuffer.mk 8000 1 [[1/2], [1]])) :=
  ⟨⟨rfl, (extractPCM16_channel_layout.1 (AudioBuffer.mk 8000 2 [[1/2, -1/2]]) rfl)⟩,
   ⟨by decide, by decide,
    extractPCM16_channel_layout.2.2 (AudioBuffer.mk 8000 1 [[1/2], [1], [1/4]])
      (AudioBuffer.mk 8000 1 [[1/2], [1]]) (by decide) (by decide) rfl rfl rfl⟩⟩

/-- C6: each float sample is first clamped to [-1, 1] and then scaled
asymmetrically — a negative clamped value by 32768 and a non-negative
one by 32767 — truncated to a 16-bit signed integer that always lies in
[-32768, 32767], and each frame of the normalized chunk carries the left
then the right 16-bit value in little-endian byte order. -/
theorem pcm16_clamp_scale_little_endian (s : ℚ) (b : AudioBuffer) (i : Nat)
    (hi : i < b.length) :
    ((max (-1 : ℚ) (min 1 s) < 0 →
        toPCM16 s = ratTrunc (max (-1 : ℚ) (min 1 s) * 32768)) ∧
      (0 ≤ max (-1 : ℚ) (min 1 s) →
        toPCM16 s = ratTrunc (max (-1 : ℚ) (min 1 s) * 32767)) ∧
      -32768 ≤ toPCM16 s ∧ toPCM16 s ≤ 32767) ∧
    ((audioBufferToWavPCM b).drop (4 * i)).take 4 =
      int16LE ((extractPCM16 b).1.getD i 0) ++
        int16LE ((extractPCM16 b).2.getD i 0) := by
  refine ⟨toPCM16_spec s, ?_⟩
  exact flatMap_range_chunk 4 b.length
    (fun j => int16LE ((extractPCM16 b).1.getD j 0) ++
      int16LE ((extractPCM16 b).2.getD j 0))
    (fun j => rfl) i hi

/-- C6 witness: the sample -1/2 scales by 32768 to -16384, the frame at
index 0 of a concrete buffer is laid out as the little-endian left pair
followed by the little-endian right pair. -/
theorem pcm16_clamp_scale_little_endian_witness :
    (0 < (AudioBuffer.mk 8000 1 [[-(1/2)], [1/4]]).length) ∧
    (((max (-1 : ℚ) (min 1 (-(1/2))) < 0 →
        toPCM16 (-(1/2)) = ratTrunc (max (-1 : ℚ) (min 1 (-(1/2))) * 32768)) ∧
      (0 ≤ max (-1 : ℚ) (min 1 (-(1/2))) →
        toPCM16 (-(1/2)) = ratTrunc (max (-1 : ℚ) (min 1 (-(1/2))) * 32767)) ∧
      -32768 ≤ toPCM16 (-(1/2)) ∧ toPCM16 (-(1/2)) ≤ 32767) ∧
    ((audioBufferToWavPCM (AudioBuffer.mk 8000 1 [[-(1/2)], [1/4]])).drop (4 * 0)).take 4 =
      int16LE ((extractPCM16 (AudioBuffer.mk 8000 1 [[-(1/2)], [1/4]])).1.getD 0 0) ++
        int16LE ((extractPCM16 (AudioBuffer.mk 8000 1 [[-(1/2)], [1/4]])).2.getD 0 0)) :=
  ⟨by decide,
    pcm16_clamp_scale_little_endian (-(1/2)) (AudioBuffer.mk 8000 1 [[-(1/2)], [1/4]])
      0 (by decide)⟩

/-- C7: the normalized PCM chunk of a decoded buffer with `frameCount`
sample frames has byte length exactly `frameCount * 4` (two channels of
two bytes per frame), whatever the shape of the source buffer. -/
theorem audioBufferToWavPCM_length (b : AudioBuffer) :
    (audioBufferToWavPCM b).length = b.length * 4 := by
  simp only [audioBufferToWavPCM, List.length_flatMap]
  have hmap : List.map
      (List.length ∘ fun i =>
        int16LE ((extractPCM16 b).1.getD i 0) ++ int16LE ((extractPCM16 b).2.getD i 0))
      (List.range b.length) = List.map (fun _ => 4) (List.range b.length) := by
    apply List.map_congr_left
    intro a _
    rfl
  rw [hmap]
  induction b.length with
  | zero => rfl
  | succ k ih => simp [List.range_succ, ih, Nat.succ_mul]

set_option maxHeartbeats 2000000 in
/-- C1: for every positive sample rate `sr`, channel count `n` and payload
byte length `d` (each representable in its header field, which the source
stores through 16/32-bit DataView writes), `createWavHeader` produces
exactly 44 bytes whose little-endian fields are: RIFF size `36 + d` at
offset 4, PCM format tag 1 at offset 20, channel count `n` at offset 22,
sample rate `sr` at offset 24, byte rate `sr * n * 2` at offset 28, block
align `n * 2` at offset 32, bits-per-sample 16 at offset 34, and data
length `d` at offset 40. -/
theorem createWavHeader_fields (sr n d : Nat) (hsr : 0 < sr)
    (hsr32 : sr < 4294967296) (hn : n * 2 < 65536)
    (hrate : sr * n * 2 < 4294967296) (hd : d + 36 < 4294967296) :
    (createWavHeader sr n d).length = 44 ∧
    readLE32 (createWavHeader sr n d) 4 = 36 + d ∧
    readLE16 (createWavHeader sr n d) 20 = 1 ∧
    readLE16 (createWavHeader sr n d) 22 = n ∧
    readLE32 (createWavHeader sr n d) 24 = sr ∧
    readLE32 (createWavHeader sr n d) 28 = sr * n * 2 ∧
    readLE16 (createWavHeader sr n d) 32 = n * 2 ∧
    readLE16 (createWavHeader sr n d) 34 = 16 ∧
    readLE32 (createWavHeader sr n d) 40 = d := by
  have hc : sr * 2 * n = sr * n * 2 := by ring
  refine ⟨rfl, ?_, ?_, ?_, ?_, ?_, ?_, ?_, ?_⟩ <;>
      simp only [createWavHeader, le32, le16, List.cons_append, List.nil_append,
        readLE32, readLE16, byteAt] <;>
    first
      | rfl
      | (rw [hc]; omega)
      | omega

/-- C1 witness: the concrete instance sr = 44100, n = 2, d = 1000 of the
spec, where the field at offset 4 is 1036, at offset 22 is 2, at offset
24 is 44100 and at offset 40 is 1000. -/
theorem createWavHeader_fields_witness :
    (0 < 44100 ∧ 44100 < 4294967296 ∧ 2 * 2 < 65536 ∧
      44100 * 2 * 2 < 4294967296 ∧ 1000 + 36 < 4294967296) ∧
    ((createWavHeader 44100 2 1000).length = 44 ∧
      readLE32 (createWavHeader 44100 2 1000) 4 = 36 + 1000 ∧
      readLE16 (createWavHeader 44100 2 1000) 20 = 1 ∧
      readLE16 (createWavHeader 44100 2 1000) 22 = 2 ∧
      readLE32 (createWavHeader 44100 2 1000) 24 = 44100 ∧
      readLE32 (createWavHeader 44100 2 1000) 28 = 44100 * 2 * 2 ∧
      readLE16 (createWavHeader 44100 2 1000) 32 = 2 * 2 ∧
      readLE16 (createWavHeader 44100 2 1000) 34 = 16 ∧
      readLE32 (createWavHeader 44100 2 1000) 40 = 1000) :=
  ⟨by decide,
    createWavHeader_fields 44100 2 1000 (by decide) (by decide) (by decide)
      (by decide) (by decide)⟩

lemma length_ne_zero_of_ne_nil {α : Type} {l : List α} (h : l ≠ []) :
    ¬ l.length = 0 := by
  simpa using h

lemma collectChunks_all_ok (ctx : AudioCtx) :
    ∀ l : List Track, (∀ t ∈ l, trackOk ctx t = true) →
      collectChunks ctx l = .ok (l.flatMap (chunkOf ctx)) := by
  intro l
  induction l with
  | nil => intro _; rfl
  | cons t ts ih =>
    intro h
    have ht : trackOk ctx t = true := h t (List.mem_cons_self _ _)
    have hts := ih fun x hx => h x (List.mem_cons_of_mem _ hx)
    unfold collectChunks
    cases hb : trackBuffer ctx t with
    | error e =>
      rw [trackOk, hb] at ht
      simp at ht
    | ok ob =>
      cases ob with
      | none =>
        simp only [List.flatMap_cons, chunkOf, hb, List.nil_append]
        exact hts
      | some b =>
        simp only [List.flatMap_cons, chunkOf, hb, hts, List.cons_append,
          List.nil_append]

lemma payloadOf_append (ctx : AudioCtx) (l₁ l₂ : List Track) :
    payloadOf ctx (l₁ ++ l₂) = payloadOf ctx l₁ ++ payloadOf ctx l₂ := by
  simp [payloadOf, List.flatMap_append, List.flatten_append]

lemma payloadOf_cons (ctx : AudioCtx) (t : Track) (l : List Track) :
    payloadOf ctx (t :: l) = payloadOf ctx [t] ++ payloadOf ctx l := by
  simp [payloadOf, List.flatMap_cons, List.flatten_append]

lemma processMerge_blob_all_ok (ctx : AudioCtx) (l : List Track) (s : MergeState)
    (hne : l ≠ []) (h : ∀ t ∈ l, trackOk ctx t = true) :
    (processMerge ctx l s).mergedBlob =
      some (createWavHeader ctx.sampleRate 2 (payloadOf ctx l).length ++
        payloadOf ctx l) := by
  unfold processMerge
  rw [if_neg (length_ne_zero_of_ne_nil hne), collectChunks_all_ok ctx l h]
  have hlen : (payloadOf ctx l).length =
      ((l.flatMap (chunkOf ctx)).map List.length).sum := by
    rw [payloadOf, List.length_flatten]
  rw [payloadOf] at hlen ⊢
  simp only [hlen]

/-- C4: invoking the merge with an empty track list is rejected at once:
the whole state, in particular the phase and the published artifact, is
returned unchanged. -/
theorem processMerge_empty_rejected (ctx : AudioCtx) (s : MergeState) :
    processMerge ctx [] s = s ∧
    (processMerge ctx [] s).processing.status = s.processing.status ∧
    (processMerge ctx [] s).mergedBlob = s.mergedBlob :=
  ⟨rfl, rfl, rfl⟩

/-- C8: one merge invocation is a function of the decoding environment
and the ordered track list alone — its outcome does not depend on the
state it starts from, so merging the same ordered list twice with no
mutation in between publishes byte-identical artifacts. -/
theorem processMerge_deterministic (ctx : AudioCtx) (tracks : List Track)
    (s₁ s₂ : MergeState) (h : tracks ≠ []) :
    processMerge ctx tracks s₁ = processMerge ctx tracks s₂ := by
  unfold processMerge
  rw [if_neg (length_ne_zero_of_ne_nil h), if_neg (length_ne_zero_of_ne_nil h)]

/-- C8 witness: a concrete one-track merge started from two different
prior states yields the same result. -/
theorem processMerge_deterministic_witness :
    ([Track.mk "a" none (some (AudioBuffer.mk 8000 1 [[0]])) "alpha" 0 .music] ≠
      ([] : List Track)) ∧
    processMerge (AudioCtx.mk 8000 fun _ => .ok (AudioBuffer.mk 8000 1 [[0]]))
        [Track.mk "a" none (some (AudioBuffer.mk 8000 1 [[0]])) "alpha" 0 .music]
        (MergeState.mk (ProcessingState.mk .idle "" 0) none) =
      processMerge (AudioCtx.mk 8000 fun _ => .ok (AudioBuffer.mk 8000 1 [[0]]))
        [Track.mk "a" none (some (AudioBuffer.mk 8000 1 [[0]])) "alpha" 0 .music]
        (MergeState.mk (ProcessingState.mk .completed "done" 100) (some [1, 2])) :=
  ⟨by simp,
    processMerge_deterministic _ _ _ _ (by simp)⟩

/-- C5: for a non-empty track list in which every track yields its
buffer, the artifact is the header followed by the normalized chunks in
exactly track-list order, and swapping two tracks of the input swaps
their chunks identically in the output. -/
theorem processMerge_order_preserved (ctx : AudioCtx) (p q r : List Track)
    (a b : Track) (s : MergeState)
    (h : ∀ t ∈ p ++ a :: (q ++ b :: r), trackOk ctx t = true)
    (h' : ∀ t ∈ p ++ b :: (q ++ a :: r), trackOk ctx t = true) :
    (processMerge ctx (p ++ a :: (q ++ b :: r)) s).mergedBlob =
      some (createWavHeader ctx.sampleRate 2
          (payloadOf ctx (p ++ a :: (q ++ b :: r))).length ++
        (payloadOf ctx p ++ payloadOf ctx [a] ++ payloadOf ctx q ++
          payloadOf ctx [b] ++ payloadOf ctx r)) ∧
    (processMerge ctx (p ++ b :: (q ++ a :: r)) s).mergedBlob =
      some (createWavHeader ctx.sampleRate 2
          (payloadOf ctx (p ++ b :: (q ++ a :: r))).length ++
        (payloadOf ctx p ++ payloadOf ctx [b] ++ payloadOf ctx q ++
          payloadOf ctx [a] ++ payloadOf ctx r)) := by
  have hsplit : ∀ x y : Track,
      payloadOf ctx (p ++ x :: (q ++ y :: r)) =
        payloadOf ctx p ++ payloadOf ctx [x] ++ payloadOf ctx q ++
          payloadOf ctx [y] ++ payloadOf ctx r := by
    intro x y
    simp [payloadOf, List.flatMap_append, List.flatMap_cons, List.flatten_append,
      List.append_assoc]
  have hne : ∀ x y : Track, p ++ x :: (q ++ y :: r) ≠ [] := by
    intro x y hc
    rcases List.append_eq_nil.mp hc with ⟨-, h2⟩
    exact List.cons_ne_nil _ _ h2
  constructor
  · rw [processMerge_blob_all_ok ctx _ s (hne a b) h, hsplit a b]
  · rw [processMerge_blob_all_ok ctx _ s (hne b a) h', hsplit b a]

/-- C5 witness: two concrete one-sample tracks merged in both orders
produce the header followed by their chunks in the corresponding
order. -/
theorem processMerge_order_preserved_witness :
    ((∀ t ∈ ([] : List Track) ++
        Track.mk "a" none (some (AudioBuffer.mk 8000 1 [[0]])) "alpha" 0 .music ::
          (([] : List Track) ++
            Track.mk "b" none (some (AudioBuffer.mk 8000 1 [[1]])) "beta" 0 .music ::
              ([] : List Track)),
        trackOk (AudioCtx.mk 8000 fun _ => .error "no decoder") t = true) ∧
      (∀ t ∈ ([] : List Track) ++
        Track.mk "b" none (some (AudioBuffer.mk 8000 1 [[1]])) "beta" 0 .music ::
          (([] : List Track) ++
            Track.mk "a" none (some (AudioBuffer.mk 8000 1 [[0]])) "alpha" 0 .music ::
              ([] : List Track)),
        trackOk (AudioCtx.mk 8000 fun _ => .error "no decoder") t = true)) ∧
    ((processMerge (AudioCtx.mk 8000 fun _ => .error "no decoder")
        (([] : List Track) ++
          Track.mk "a" none (some (AudioBuffer.mk 8000 1 [[0]])) "alpha" 0 .music ::
            (([] : List Track) ++
              Track.mk "b" none (some (AudioBuffer.mk 8000 1 [[1]])) "beta" 0 .music ::
                ([] : List Track)))
        (MergeState.mk (ProcessingState.mk .idle "" 0) none)).mergedBlob =
      some (createWavHeader 8000 2
          (payloadOf (AudioCtx.mk 8000 fun _ => .error "no decoder")
            (([] : List Track) ++
              Track.mk "a" none (some (AudioBuffer.mk 8000 1 [[0]])) "alpha" 0 .music ::
                (([] : List Track) ++
                  Track.mk "b" none (some (AudioBuffer.mk 8000 1 [[1]])) "beta" 0 .music ::
                    ([] : List Track)))).length ++
        (payloadOf (AudioCtx.mk 8000 fun _ => .error "no decoder") ([] : List Track) ++
          payloadOf (AudioCtx.mk 8000 fun _ => .error "no decoder")
            [Track.mk "a" none (some (AudioBuffer.mk 8000 1 [[0]])) "alpha" 0 .music] ++
          payloadOf (AudioCtx.mk 8000 fun _ => .error "no decoder") ([] : List Track) ++
          payloadOf (AudioCtx.mk 8000 fun _ => .error "no decoder")
            [Track.mk "b" none (some (AudioBuffer.mk 8000 1 [[1]])) "beta" 0 .music] ++
          payloadOf (AudioCtx.mk 8000 fun _ => .error "no decoder") ([] : List Track)))) := by
  refine ⟨⟨by decide, by decide⟩, ?_⟩
  exact (processMerge_order_preserved (AudioCtx.mk 8000 fun _ => .error "no decoder")
    [] [] [] (Track.mk "a" none (some (AudioBuffer.mk 8000 1 [[0]])) "alpha" 0 .music)
    (Track.mk "b" none (some (AudioBuffer.mk 8000 1 [[1]])) "beta" 0 .music)
    (MergeState.mk (ProcessingState.mk .idle "" 0) none)
    (by decide) (by decide)).1

/-- C3 counterexample: when track 3 of the five concrete tracks fails to
decode, the phase does go to `error` and no artifact is published, but
the recorded message mentions neither the name of track 3 nor the digit
3; indeed it is byte-for-byte the same message that results when track 2
fails instead, so the message cannot reference the failing track. -/
theorem processMerge_error_message_counterexample :
    (processMerge (ctxFailingOn 3) fiveTracks idleState).processing.status =
      .error ∧
    (processMerge (ctxFailingOn 3) fiveTracks idleState).mergedBlob = none ∧
    strMentions
      (processMerge (ctxFailingOn 3) fiveTracks idleState).processing.message
      "gamma" = false ∧
    strMentions
      (processMerge (ctxFailingOn 3) fiveTracks idleState).processing.message
      "3" = false ∧
    (processMerge (ctxFailingOn 3) fiveTracks idleState).processing.message =
      (processMerge (ctxFailingOn 2) fiveTracks idleState).processing.message := by
  decide

/-- C3 as amended: if obtaining any buffer of a non-empty track list
fails, the invocation ends with status `error`, no artifact published
(the published result is cleared), and the recorded message equal to the
generic failure text plus the underlying error message in parentheses —
a message that carries no reference to the failing track. -/
theorem processMerge_failure_state (ctx : AudioCtx) (tracks : List Track)
    (s : MergeState) (msg : String) (hne : tracks ≠ [])
    (h : collectChunks ctx tracks = .error msg) :
    (processMerge ctx tracks s).processing.status = .error ∧
    (processMerge ctx tracks s).mergedBlob = none ∧
    (processMerge ctx tracks s).processing.message =
      statusError ++ " (" ++ (if msg = "" then "Unknown error" else msg) ++ ")" := by
  unfold processMerge
  rw [if_neg (length_ne_zero_of_ne_nil hne), h]
  exact ⟨rfl, rfl, rfl⟩

/-- C3 witness: the concrete failing-track-3 scenario instantiates the
amended statement. -/
theorem processMerge_failure_state_witness :
    (fiveTracks ≠ [] ∧
      collectChunks (ctxFailingOn 3) fiveTracks = .error "decode failed") ∧
    ((processMerge (ctxFailingOn 3) fiveTracks idleState).processing.status =
        .error ∧
      (processMerge (ctxFailingOn 3) fiveTracks idleState).mergedBlob = none ∧
      (processMerge (ctxFailingOn 3) fiveTracks idleState).processing.message =
        statusError ++ " (" ++
          (if "decode failed" = "" then "Unknown error" else "decode failed") ++
          ")") :=
  ⟨⟨by simp [fiveTracks], rfl⟩,
    processMerge_failure_state (ctxFailingOn 3) fiveTracks idleState
      "decode failed" (by simp [fiveTracks]) rfl⟩

lemma getD_mem {α : Type} (l : List α) (j : Nat) (d : α) (h : j < l.length) :
    l.getD j d ∈ l := by
  rw [List.getD_eq_getElem l d h]
  exact List.getElem_mem h

lemma moveTrack_subset (tracks : List Track) (i : Nat) (dir : MoveDirection)
    (hi : i < tracks.length) : ∀ t ∈ moveTrack tracks i dir, t ∈ tracks := by
  intro t ht
  cases dir with
  | up =>
    rw [moveTrack] at ht
    by_cases h0 : 0 < i
    · rw [if_pos h0] at ht
      rcases List.mem_or_eq_of_mem_set ht with ht' | rfl
      · rcases List.mem_or_eq_of_mem_set ht' with ht'' | rfl
        · exact ht''
        · exact getD_mem tracks (i - 1) dummyTrack (by omega)
      · exact getD_mem tracks i dummyTrack hi
    · rwa [if_neg h0] at ht
  | down =>
    rw [moveTrack] at ht
    by_cases h0 : i < tracks.length - 1
    · rw [if_pos h0] at ht
      rcases List.mem_or_eq_of_mem_set ht with ht' | rfl
      · rcases List.mem_or_eq_of_mem_set ht' with ht'' | rfl
        · exact ht''
        · exact getD_mem tracks (i + 1) dummyTrack (by omega)
      · exact getD_mem tracks i dummyTrack hi
    · rwa [if_neg h0] at ht

lemma sortTracksSmartly_subset (tracks : List Track) (order : List Int) :
    ∀ t ∈ sortTracksSmartly tracks order, t ∈ tracks := by
  intro t ht
  rcases List.mem_append.mp ht with hl | hr
  · rcases List.mem_map.mp hl with ⟨i, hi, rfl⟩
    have hcond := (List.mem_filter.mp hi).2
    rw [Bool.and_eq_true, decide_eq_true_iff, decide_eq_true_iff] at hcond
    exact getD_mem tracks i.toNat dummyTrack (by omega)
  · rcases List.mem_filterMap.mp hr with ⟨j, hj, hsome⟩
    by_cases hmem : ((j : Int) ∈ validIndices tracks order)
    · rw [if_pos hmem] at hsome
      exact absurd hsome (by simp)
    · rw [if_neg hmem] at hsome
      cases hsome
      exact getD_mem tracks j dummyTrack (List.mem_range.mp hj)

/-- C9: every track the program constructs carries exactly one of the
raw file reference and the pre-decoded buffer — file-import tracks have
a file and no buffer, AI-intro tracks have a buffer and a null file —
and each track-list operation (upload append, intro prepend, reorder by
neighbour swap, removal, AI reorder) preserves the invariant for every
track in the resulting list, since none of them mutates a track. -/
theorem track_provenance_invariant :
    (∀ (idGen : Nat → String) (files : List JSFile) (prev : List Track),
      (∀ t ∈ prev, trackInvariant t) →
      ∀ t ∈ handleFileUpload idGen files prev, trackInvariant t) ∧
    (∀ (now aiName : String) (buffer : AudioBuffer) (prev : List Track),
      (∀ t ∈ prev, trackInvariant t) →
      ∀ t ∈ handleAddIntro now aiName buffer prev, trackInvariant t) ∧
    (∀ (tracks : List Track) (i : Nat) (dir : MoveDirection),
      i < tracks.length → (∀ t ∈ tracks, trackInvariant t) →
      ∀ t ∈ moveTrack tracks i dir, trackInvariant t) ∧
    (∀ (id : String) (tracks : List Track),
      (∀ t ∈ tracks, trackInvariant t) →
      ∀ t ∈ removeTrack id tracks, trackInvariant t) ∧
    (∀ (tracks : List Track) (order : List Int),
      (∀ t ∈ tracks, trackInvariant t) →
      ∀ t ∈ sortTracksSmartly tracks order, trackInvariant t) := by
  refine ⟨?_, ?_, ?_, ?_, ?_⟩
  · intro idGen files prev hprev t ht
    rcases List.mem_append.mp ht with hp | hnew
    · exact hprev t hp
    · rcases List.mem_map.mp hnew with ⟨p, -, rfl⟩
      simp [trackInvariant, mkUploadTrack]
  · intro now aiName buffer prev hprev t ht
    rcases List.mem_cons.mp ht with rfl | hp
    · simp [trackInvariant, handleAddIntro]
    · exact hprev t hp
  · intro tracks i dir hi hall t ht
    exact hall t (moveTrack_subset tracks i dir hi t ht)
  · intro id tracks hall t ht
    exact hall t (List.mem_of_mem_filter ht)
  · intro tracks order hall t ht
    exact hall t (sortTracksSmartly_subset tracks order t ht)

/-- C9 witness: the invariant holds for a concrete upload, a concrete
AI intro, a neighbour swap, a removal and an AI reorder, each applied to
small concrete lists. -/
theorem track_provenance_invariant_witness :
    (∀ t ∈ handleFileUpload (fun _ => "u1")
        [JSFile.mk "a.mp3" "audio/mpeg" [1]] [], trackInvariant t) ∧
    (∀ t ∈ handleAddIntro "7" "intro" (AudioBuffer.mk 8000 1 [[0]]) [],
      trackInvariant t) ∧
    (∀ t ∈ moveTrack
        [mkUploadTrack "u1" (JSFile.mk "a.mp3" "audio/mpeg" [1]),
         mkUploadTrack "u2" (JSFile.mk "b.mp3" "audio/mpeg" [2])] 1 .up,
      trackInvariant t) ∧
    (∀ t ∈ removeTrack "u1"
        [mkUploadTrack "u1" (JSFile.mk "a.mp3" "audio/mpeg" [1])],
      trackInvariant t) ∧
    (∀ t ∈ sortTracksSmartly
        [mkUploadTrack "u1" (JSFile.mk "a.mp3" "audio/mpeg" [1])] [5, 0, 0],
      trackInvariant t) :=
  ⟨track_provenance_invariant.1 (fun _ => "u1")
      [JSFile.mk "a.mp3" "audio/mpeg" [1]] [] (by simp),
   track_provenance_invariant.2.1 "7" "intro" (AudioBuffer.mk 8000 1 [[0]]) []
      (by simp),
   track_provenance_invariant.2.2.1
      [mkUploadTrack "u1" (JSFile.mk "a.mp3" "audio/mpeg" [1]),
       mkUploadTrack "u2" (JSFile.mk "b.mp3" "audio/mpeg" [2])] 1 .up
      (by simp) (by simp [trackInvariant, mkUploadTrack]),
   track_provenance_invariant.2.2.2.1 "u1"
      [mkUploadTrack "u1" (JSFile.mk "a.mp3" "audio/mpeg" [1])]
      (by simp [trackInvariant, mkUploadTrack]),
   track_provenance_invariant.2.2.2.2
      [mkUploadTrack "u1" (JSFile.mk "a.mp3" "audio/mpeg" [1])] [5, 0, 0]
      (by simp [trackInvariant, mkUploadTrack])⟩

/-- C10: whatever index list the AI reordering returns — out of range,
duplicated or incomplete — every track of the input list occurs in the
result of `sortTracksSmartly`: the tracks at indices the AI omitted are
appended after the AI-ordered ones, so no track is dropped. -/
theorem sortTracksSmartly_retains_all (tracks : List Track) (order : List Int)
    (j : Nat) (hj : j < tracks.length) :
    tracks.get ⟨j, hj⟩ ∈ sortTracksSmartly tracks order := by
  by_cases hmem : ((j : Int) ∈ validIndices tracks order)
  · apply List.mem_append_left
    apply List.mem_map.mpr
    refine ⟨(j : Int), hmem, ?_⟩
    have htn : ((j : Int)).toNat = j := by omega
    rw [htn, List.getD_eq_getElem tracks dummyTrack hj]
    simp
  · apply List.mem_append_right
    apply List.mem_filterMap.mpr
    refine ⟨j, List.mem_range.mpr hj, ?_⟩
    rw [if_neg hmem, List.getD_eq_getElem tracks dummyTrack hj]
    simp

/-- C10 witness: with two tracks and the junk AI answer [5, -1, 0, 0]
(out of range, negative, duplicated, and omitting index 1), both tracks
are still present in the reordered result. -/
theorem sortTracksSmartly_retains_all_witness :
    (0 < ([mkUploadTrack "u1" (JSFile.mk "a.mp3" "audio/mpeg" [1]),
        mkUploadTrack "u2" (JSFile.mk "b.mp3" "audio/mpeg" [2])] :
        List Track).length ∧
      1 < ([mkUploadTrack "u1" (JSFile.mk "a.mp3" "audio/mpeg" [1]),
        mkUploadTrack "u2" (JSFile.mk "b.mp3" "audio/mpeg" [2])] :
        List Track).length) ∧
    ([mkUploadTrack "u1" (JSFile.mk "a.mp3" "audio/mpeg" [1]),
        mkUploadTrack "u2" (JSFile.mk "b.mp3" "audio/mpeg" [2])].get
        ⟨0, by simp⟩ ∈
      sortTracksSmartly
        [mkUploadTrack "u1" (JSFile.mk "a.mp3" "audio/mpeg" [1]),
         mkUploadTrack "u2" (JSFile.mk "b.mp3" "audio/mpeg" [2])]
        [5, -1, 0, 0] ∧
     [mkUploadTrack "u1" (JSFile.mk "a.mp3" "audio/mpeg" [1]),
        mkUploadTrack "u2" (JSFile.mk "b.mp3" "audio/mpeg" [2])].get
        ⟨1, by simp⟩ ∈
      sortTracksSmartly
        [mkUploadTrack "u1" (JSFile.mk "a.mp3" "audio/mpeg" [1]),
         mkUploadTrack "u2" (JSFile.mk "b.mp3" "audio/mpeg" [2])]
        [5, -1, 0, 0]) :=
  ⟨⟨by simp, by simp⟩,
   sortTracksSmartly_retains_all _ [5, -1, 0, 0] 0 (by simp),
   sortTracksSmartly_retains_all _ [5, -1, 0, 0] 1 (by simp)⟩

end StoreAudio
